import Mathlib

/-!
Verification development for the odfuzz core (entities.py, monkey.py).

The Python source is embedded shallowly: pure functions become Lean
functions, mutation becomes explicit state passing, fallible code returns
Option, and the global random source becomes an explicit stream of
rational draws in [0, 1).  Constants from odfuzz.constants (a module of
this repository that is not under src/) are modelled from the spec as
explicit parameters or named definitions.

The file is organised as definitions first, then the theorems.
-/

set_option maxRecDepth 100000

namespace Odfuzz

/-! ### Python-semantics helpers -/

/-- Python's built-in round on a rational: round half to even
(banker's rounding), as used by round(random.random() * n) in the source. -/
def pyRound (q : ℚ) : ℤ :=
  if Int.fract q = 1/2 then
    (if ⌊q⌋ % 2 = 0 then ⌊q⌋ else ⌊q⌋ + 1)
  else round q

/-- Python str.startswith, written over the character list so that it
evaluates by kernel reduction. -/
def strStartsWith (t p : String) : Bool := p.data.isPrefixOf t.data

/-- Python str.endswith, written over the character list so that it
evaluates by kernel reduction. -/
def strEndsWith (t s : String) : Bool := s.data.reverse.isPrefixOf t.data.reverse

/-- Resolve a Python list index (negative indices count from the end);
none models an IndexError. -/
def pyResolveIdx (n : ℕ) (i : ℤ) : Option ℕ :=
  if 0 ≤ i ∧ i < n then some i.toNat
  else if i < 0 ∧ 0 ≤ (n : ℤ) + i then some ((n : ℤ) + i).toNat
  else none

/-- Python list subscription xs[i], with negative indexing. -/
def pyGetL {α : Type} (xs : List α) (i : ℤ) : Option α :=
  (pyResolveIdx xs.length i).bind (fun j => xs.get? j)

/-- Python list.pop(i): the removed element together with the remaining list. -/
def pyPopL {α : Type} (xs : List α) (i : ℤ) : Option (α × List α) :=
  (pyResolveIdx xs.length i).bind (fun j => (xs.get? j).map (fun a => (a, xs.eraseIdx j)))

/-- Python dict.get(k) on an insertion-ordered association list. -/
def pyDictGet {β : Type} (d : List (String × β)) (k : String) : Option β :=
  (d.find? (fun kv => kv.1 = k)).map (fun kv => kv.2)

/-- Python dict d[k] = v on an insertion-ordered association list:
overwrite in place when the key exists, append otherwise. -/
def pyDictInsert {β : Type} (d : List (String × β)) (k : String) (v : β) :
    List (String × β) :=
  if (d.find? (fun kv => kv.1 = k)).isSome then
    d.map (fun kv => if kv.1 = k then (kv.1, v) else kv)
  else d ++ [(k, v)]

/-- Python dict d[k] = v for integer keys. -/
def pyDictInsertZ {β : Type} (d : List (ℤ × β)) (k : ℤ) (v : β) : List (ℤ × β) :=
  if (d.find? (fun kv => kv.1 = k)).isSome then
    d.map (fun kv => if kv.1 = k then (kv.1, v) else kv)
  else d ++ [(k, v)]

/-- Replace the last element of a list, as Python's xs[-1] = v / mutation of
the object obtained from xs[-1]; the empty list is left unchanged (the
callers below guard the empty case through Option reads). -/
def modLast {α : Type} (f : α → α) : List α → List α
  | [] => []
  | [a] => [f a]
  | a :: b :: rest => a :: modLast f (b :: rest)

/-! ### Modelled constants (odfuzz.constants is not under src/) -/

/-- Modelled from the spec: the unbounded ceiling used by the top and skip
ranges; the spec calls it INT_MAX, the 32-bit signed maximum that also
appears as the int32 bound in the source. -/
def INT_MAX : ℤ := 2147483647

/-- Modelled from the spec: the global all-properties exclusion scope key
of a restrictions exclude mapping; the exact token is immaterial here. -/
def GLOBAL_PROPRTY : String := "$P_ALL$"

/-- Modelled from the spec: the global all-functions exclusion scope key
of a restrictions exclude mapping. -/
def GLOBAL_FUNCTION : String := "$F_ALL$"

/-! ### entities.py: weighted_random -/

/-- entities.py weighted_random: scan the (value, weight) pairs in order with
a single draw r, returning the first value with r below its weight and
decrementing r by the weight otherwise; None when the scan exhausts. -/
def weighted_random {α : Type} (r : ℚ) : List (α × ℚ) → Option α
  | [] => none
  | (v, w) :: rest => if r < w then some v else weighted_random (r - w) rest

/-- The behaviour the spec describes for weighted_random, written with an
explicit running sum of the preceding weights: return the first value in
scan order for which the draw, after having each preceding pair's weight
subtracted from it, is strictly below that pair's weight. -/
def weightedRandomSpec {α : Type} (r acc : ℚ) : List (α × ℚ) → Option α
  | [] => none
  | (v, w) :: rest =>
      if r - acc < w then some v else weightedRandomSpec r (acc + w) rest

/-! ### monkey.py: patch_proprty_generator -/

/-- The generation capability installed on a property by
monkey.patch_proprty_generator.  constNone models the catch-all
lambda: None branches. -/
inductive GenCapability where
  | edmString | edmDatetime | edmBoolean | edmByte | edmSbyte
  | edmSingle | edmGuid | edmDecimal | edmDatetimeoffset | edmTime
  | edmBinary | edmInt16 | edmInt32 | edmInt64
  | constNone
  deriving DecidableEq

/-- monkey.patch_proprty_generator: the if/elif cascade on the property's
primitive type tag, translated branch for branch. -/
def patch_proprty_generator (t : String) : GenCapability :=
  if t = "Edm.String" then .edmString
  else if t = "Edm.DateTime" then .edmDatetime
  else if t = "Edm.Boolean" then .edmBoolean
  else if t = "Edm.Byte" then .edmByte
  else if t = "Edm.SByte" then .edmSbyte
  else if t = "Edm.Single" then .edmSingle
  else if t = "Edm.Guid" then .edmGuid
  else if t = "Edm.Decimal" then .edmDecimal
  else if t = "Edm.DateTimeOffset" then .edmDatetimeoffset
  else if t = "Edm.Time" then .edmTime
  else if t = "Edm.Binary" then .edmBinary
  else if strStartsWith t "Edm.Int" then
    (if strEndsWith t "16" then .edmInt16
     else if strEndsWith t "32" then .edmInt32
     else if strEndsWith t "64" then .edmInt64
     else .constNone)
  else .constNone

/-- The set of Edm type tags for which patch_proprty_generator installs a
real literal generator: the eleven exact tags plus the Edm.Int prefix with
a 16/32/64 suffix. -/
def handledEdmType (t : String) : Bool :=
  t == "Edm.String" || t == "Edm.DateTime" || t == "Edm.Boolean" ||
  t == "Edm.Byte" || t == "Edm.SByte" || t == "Edm.Single" ||
  t == "Edm.Guid" || t == "Edm.Decimal" || t == "Edm.DateTimeOffset" ||
  t == "Edm.Time" || t == "Edm.Binary" ||
  (strStartsWith t "Edm.Int" && (strEndsWith t "16" || strEndsWith t "32" || strEndsWith t "64"))

/-! ### The property capability (external collaborator, interface from §3) -/

/-- A property as seen by the core after monkey patching: metadata flags
plus the externally supplied literal generator, the latter modelled as a
function of one random draw. -/
structure Proprty where
  name : String
  typ : String := ""
  filterable : Bool := true
  sortable : Bool := true
  requiredInFilter : Bool := false
  filterRestriction : Option String := none
  operators : List (String × ℚ) := []
  gen : ℚ → String := fun _ => ""
  replaceable : Bool := true

/-! ### entities.py: TopQuery and SkipQuery -/

/-- The outcome of the one-shot count probe in TopQuery._get_total_entities:
either the dispatcher raised, or a response text arrived whose parse as an
integer succeeded (some n) or failed (none). -/
inductive ProbeOutcome where
  | dispatchError
  | response (parsed : Option ℤ)
  deriving DecidableEq

/-- TopQuery._get_total_entities: a DispatcherError or an unparsable
response body both fall back to INT_MAX. -/
def get_total_entities : ProbeOutcome → ℤ
  | .dispatchError => INT_MAX
  | .response none => INT_MAX
  | .response (some n) => n

/-- TopQuery._set_max_range: the max-range weight dict after
initialization.  includeVal holds int(max_values[0]) when the include
restriction lists a value for this entity set, none otherwise. -/
def top_set_max_range (includeVal : Option ℤ) (probe : ProbeOutcome) : List (ℤ × ℚ) :=
  let base := pyDictInsertZ [(INT_MAX, 1)] INT_MAX (1/1000)
  let total := match includeVal with
    | some v => v
    | none => get_total_entities probe
  if total > 1000 then pyDictInsertZ base 1000 (999/1000)
  else pyDictInsertZ base total (999/1000)

/-- SkipQuery._set_max_range: as for top but without a probe; with no
include value the total stays INT_MAX and keeps weight 1. -/
def skip_set_max_range (includeVal : Option ℤ) : List (ℤ × ℚ) :=
  let base := pyDictInsertZ [(INT_MAX, 1)] INT_MAX (1/1000)
  let total := match includeVal with
    | some v => v
    | none => INT_MAX
  if total = INT_MAX then pyDictInsertZ base total 1
  else pyDictInsertZ base total (999/1000)

/-- TopQuery.generate: weighted-select a range, cap it against INT_MAX
using the depending skip value, and round a draw into it.  skipDep models
depending_data.get(SKIP) (0 and None are both falsy). -/
def top_generate (maxRangeProb : List (ℤ × ℚ)) (rSel : ℚ) (skipDep : Option ℤ)
    (rTop : ℚ) : Option ℤ :=
  match weighted_random rSel maxRangeProb with
  | none => none
  | some sel =>
    let maxRange : ℤ := match skipDep with
      | some s => if s ≠ 0 ∧ s + sel > INT_MAX then INT_MAX - s else sel
      | none => sel
    some (pyRound (rTop * (maxRange : ℚ)))

/-- SkipQuery.generate, the mirror image of top_generate with the top value
as depending data. -/
def skip_generate (maxRangeProb : List (ℤ × ℚ)) (rSel : ℚ) (topDep : Option ℤ)
    (rSkip : ℚ) : Option ℤ :=
  match weighted_random rSel maxRangeProb with
  | none => none
  | some sel =>
    let maxRange : ℤ := match topDep with
      | some t => if t ≠ 0 ∧ t + sel > INT_MAX then INT_MAX - t else sel
      | none => sel
    some (pyRound (rSkip * (maxRange : ℚ)))

/-- Modelled from the spec (claim C4): the configured maximum range of an
entity set: the include-restriction value when present, otherwise the
count-probe result capped at the hard ceiling 1000. -/
def configuredMaxRange (includeVal : Option ℤ) (probe : ProbeOutcome) : ℤ :=
  match includeVal with
  | some v => v
  | none => min (get_total_entities probe) 1000

/-! ### entities.py: entity sets and QueryGroup restriction handling -/

/-- The slice of a pyodata entity set the QueryGroup initialization reads
and writes: the property collection (entity_type._properties), the
navigation property names, and the metadata flags. -/
structure EntitySetM where
  name : String
  proprties : List Proprty
  navProprties : List String
  addressable : Bool := true
  requiresFilter : Bool := false
  topable : Bool := true
  pageable : Bool := true

/-- QueryGroup._delete_restricted_proprties: deep-copy the entity set,
collect the exclusion list for this entity set extended with the global
property exclusions (the extend mutates the entry stored in the caller's
exclude mapping), and delete restricted or non-attribute properties from
the copy.  Returns the copy together with the exclude mapping as left
behind by the call. -/
def delete_restricted_proprties (es : EntitySetM)
    (excludeRestr : Option (List (String × List String)))
    (attr : Proprty → Bool) (draftProprties : List String) :
    EntitySetM × Option (List (String × List String)) :=
  let keep := fun (restrList : List String) (p : Proprty) =>
    !((restrList.contains p.name || !attr p) && !draftProprties.contains p.name)
  let del := fun (restrList : List String) =>
    { es with proprties := es.proprties.filter (keep restrList) }
  match excludeRestr with
  | none => (del [], none)
  | some ex =>
    if ex.isEmpty then (del [], some ex)
    else
      let own := (pyDictGet ex es.name).getD []
      let glob := (pyDictGet ex GLOBAL_PROPRTY).getD []
      let ex' :=
        if (pyDictGet ex es.name).isSome then
          ex.map (fun kv => if kv.1 = es.name then (kv.1, kv.2 ++ glob) else kv)
        else ex
      (del (own ++ glob), some ex')

/-- QueryGroup._init_filter_query, restricted to its effect on entity-set
state: build the deep copy with restricted properties removed, then assign
the requires-filter flag on BOTH the original entity set and the copy
(the line self._entity_set._req_filter = entity_set._req_filter =
needs_filter).  restrOpt is the $filter restriction object when present,
carrying its exclude mapping.  Returns (original after init, copy). -/
def init_filter_query_entity_effect (es : EntitySetM)
    (restrOpt : Option (List (String × List String)))
    (draftProprties : List String) : EntitySetM × EntitySetM :=
  let needsFilter := match restrOpt with
    | some _ => true
    | none => es.requiresFilter
  let draft := match restrOpt with
    | some _ => draftProprties
    | none => []
  let excl := restrOpt
  let copyEs := (delete_restricted_proprties es excl (fun p => p.filterable) draft).1
  ({ es with requiresFilter := needsFilter },
   { copyEs with requiresFilter := needsFilter })

/-- The original entity set as QueryGroup initialization leaves it.  The
orderby and expand initializers delete only from deep copies; the filter
initializer is the one that writes through to the original (its
requires-filter flag). -/
def query_group_init_original (es : EntitySetM)
    (filterRestr : Option (List (String × List String)))
    (draftProprties : List String) : EntitySetM :=
  (init_filter_query_entity_effect es filterRestr draftProprties).1

/-! ### entities.py: FilterFunctionsGroup and the shared class tables -/

/-- The function-family classes: one method table per class
(StringFilterFunctions, DateFilterFunctions, MathFilterFunctions).  The
tables are class-level state shared by every instance: delattr on
functions_wrapper.__class__ writes here. -/
structure PyClassTables where
  stringMethods : List String
  dateMethods : List String
  mathMethods : List String
  deriving DecidableEq

/-- The family keys of a FilterFunctionsGroup instance's _group dict. -/
inductive FamilyKey where
  | stringF | dateF | mathF
  deriving DecidableEq

/-- The func_ methods of StringFilterFunctions, as inspect.getmembers
lists them (alphabetically). -/
def initialStringMethods : List String :=
  ["func_concat", "func_endswith", "func_indexof", "func_length",
   "func_replace", "func_startswith", "func_substring", "func_substringof",
   "func_tolower", "func_toupper", "func_trim"]

/-- The func_ methods of DateFilterFunctions. -/
def initialDateMethods : List String :=
  ["func_day", "func_hour", "func_minute", "func_month", "func_second", "func_year"]

/-- The func_ methods of MathFilterFunctions. -/
def initialMathMethods : List String :=
  ["func_ceiling", "func_floor", "func_round"]

/-- The class tables before any restriction has been applied. -/
def initialClassTables : PyClassTables :=
  { stringMethods := initialStringMethods,
    dateMethods := initialDateMethods,
    mathMethods := initialMathMethods }

/-- get_methods_dict for a family: reads the (shared) class table. -/
def methodsOf (t : PyClassTables) : FamilyKey → List String
  | .stringF => t.stringMethods
  | .dateF => t.dateMethods
  | .mathF => t.mathMethods

/-- Write one family's class table. -/
def setMethods (t : PyClassTables) : FamilyKey → List String → PyClassTables
  | .stringF, ms => { t with stringMethods := ms }
  | .dateF, ms => { t with dateMethods := ms }
  | .mathF, ms => { t with mathMethods := ms }

/-- FilterFunctionsGroup._init_functions_group: which family keys this
entity set's _group dict ends up holding, from its filterable properties
(properties with a filter restriction are skipped). -/
def initFunctionsGroupKeys (props : List Proprty) : List FamilyKey :=
  props.foldl
    (fun keys p =>
      if p.filterRestriction ≠ none then keys
      else if p.typ = "Edm.String" then
        (if FamilyKey.stringF ∈ keys then keys else keys ++ [.stringF])
      else if p.typ = "Edm.DateTime" then
        (if FamilyKey.dateF ∈ keys then keys else keys ++ [.dateF])
      else if p.typ = "Edm.Decimal" then
        (if FamilyKey.mathF ∈ keys then keys else keys ++ [.mathF])
      else keys)
    []

/-- FilterFunctionsGroup._delete_restricted_functions: for each family in
this instance's group, delete each named func_ method from the CLASS table
(delattr on functions_wrapper.__class__), dropping the family key from
this instance's group when its class table became empty. -/
def delete_restricted_functions (tables : PyClassTables) (groupKeys : List FamilyKey)
    (restricted : List String) : PyClassTables × List FamilyKey :=
  groupKeys.foldl
    (fun acc k =>
      let ms := restricted.foldl
        (fun ms r => ms.filter (fun m => m ≠ "func_" ++ r)) (methodsOf acc.1 k)
      let tb := setMethods acc.1 k ms
      if ms.isEmpty then (tb, acc.2.filter (fun k2 => k2 ≠ k)) else (tb, acc.2))
    (tables, groupKeys)

/-- FilterFunctionsGroup._apply_restrictions: the global function
exclusions, when present and non-empty, are deleted. -/
def apply_function_restrictions (tables : PyClassTables) (groupKeys : List FamilyKey)
    (exclude : List (String × List String)) : PyClassTables × List FamilyKey :=
  match pyDictGet exclude GLOBAL_FUNCTION with
  | some fs => if fs.isEmpty then (tables, groupKeys)
               else delete_restricted_functions tables groupKeys fs
  | none => (tables, groupKeys)

/-- The functions a FilterFunctionsGroup instance exposes: its group keys
resolved through the (shared) class tables, as _generate_function and
get_methods_dict read them. -/
def exposedFunctions (tables : PyClassTables) (groupKeys : List FamilyKey) : List String :=
  (groupKeys.map (methodsOf tables)).flatten

/-- Concrete fixture for C3: entity set one has a plain string property. -/
def c3Proprty1 : Proprty := { name := "Name", typ := "Edm.String" }

/-- Concrete fixture for C3: entity set two also has a string property. -/
def c3Proprty2 : Proprty := { name := "Label", typ := "Edm.String" }

/-- C3 fixture: the group keys of entity set one's FilterFunctionsGroup. -/
def c3GroupKeys1 : List FamilyKey := initFunctionsGroupKeys [c3Proprty1]

/-- C3 fixture: the group keys of entity set two's FilterFunctionsGroup. -/
def c3GroupKeys2 : List FamilyKey := initFunctionsGroupKeys [c3Proprty2]

/-- C5 fixture: an entity set that does not require a filter. -/
def c5EntitySet : EntitySetM :=
  { name := "Orders",
    proprties := [{ name := "Id", typ := "Edm.Int32" }],
    navProprties := ["ToItems"],
    requiresFilter := false }

/-- C9 fixture: the entity set whose name keys the exclude entry. -/
def c9EntitySet : EntitySetM :=
  { name := "Cars", proprties := [], navProprties := [] }

/-! ### entities.py: FilterQuery, the recursive filter grammar

The random source becomes a stream of rational draws indexed by position;
uuid4 part/logical/group ids become a fresh-id counter (only their
uniqueness matters); the generate() capability of a property consumes one
draw.  Every mutation of FilterQuery/FilterOption state is threaded
through an explicit state record, and list reads that can raise IndexError
return through Option. -/

/-- A Part node of the FilterOption graph (one leaf comparison). -/
structure PartM where
  id : ℕ
  name : Option String := none
  operator : Option String := none
  operand : Option String := none
  left_id : Option ℕ := none
  right_id : Option ℕ := none
  replaceable : Option Bool := none
  proprtiesUsed : Option (List String) := none
  params : Option (List String) := none
  func : Option String := none
  returnType : Option String := none
  deriving DecidableEq

/-- A Logical node (one binary connective). -/
structure LogicalM where
  id : ℕ
  name : Option String := none
  left_id : Option ℕ := none
  right_id : Option ℕ := none
  group_id : Option ℕ := none
  deriving DecidableEq

/-- A Group node (one parenthesized sub-expression). -/
structure GroupM where
  id : ℕ
  logicals : List ℕ := []
  left_id : Option ℕ := none
  right_id : Option ℕ := none
  deriving DecidableEq

/-- FilterOption: the flat cross-referenced graph of one generated filter. -/
structure FilterOptionM where
  logicals : List LogicalM := []
  parts : List PartM := []
  groups : List GroupM := []
  deriving DecidableEq

/-- The two pools of ProprtiesSelector._proprties, in scan order. -/
inductive PoolKind where
  | nonRequired | required
  deriving DecidableEq

/-- ProprtiesSelector state: the shared filterable list (also backing the
non-required group), the shared required list (popped on required draws),
the has-remaining flag and call counter, and the weighted pool tuples. -/
structure SelectorM where
  filterable : List Proprty
  required : List Proprty
  hasRemainingFlag : Bool
  timesCalled : ℕ
  tuples : List (PoolKind × ℚ)

/-- One generated filter function (the FilterFunction container): its
rendered call string, the return type's weighted operators and literal
generator, and the bookkeeping fields. -/
structure FuncGenerated where
  generatedString : String
  operators : List (String × ℚ)
  operandGen : ℚ → String
  proprtiesUsed : List String
  params : List String
  funcName : String
  returnType : String

/-- The constants and per-entity-set configuration a FilterQuery closes
over; the numeric constants come from odfuzz.constants (not under src/)
and stay parameters.  functionsGroup models the FilterFunctionsGroup: one
list of callable func_ methods per family; each method consumes one draw
(its internal random choices are outside the core per §3/§6). -/
structure FQConfig where
  recursionLimit : ℕ
  singleValueProb : ℚ
  functionWeight : ℚ
  maxMultiValues : ℕ
  logicalOperators : List (String × ℚ)
  functionsGroup : List (List (ℚ → FuncGenerated))

/-- The mutable state of one FilterQuery.generate() run. -/
structure FQState where
  depth : ℕ
  finalizingGroups : ℕ
  rightPart : Bool
  option : FilterOptionM
  groupsStack : List ℕ
  optionString : String
  selector : SelectorM
  nextId : ℕ
  stream : ℕ → ℚ
  pos : ℕ

/-- Consume one draw from the random source. -/
def drawQ (st : FQState) : ℚ × FQState :=
  (st.stream st.pos, { st with pos := st.pos + 1 })

/-- FilterOption.add_part (uuid4 becomes the fresh-id counter). -/
def addPart (st : FQState) : FQState :=
  { st with
    option := { st.option with parts := st.option.parts ++ [{ id := st.nextId }] },
    nextId := st.nextId + 1 }

/-- FilterOption.add_logical. -/
def addLogical (st : FQState) : FQState :=
  { st with
    option := { st.option with logicals := st.option.logicals ++ [{ id := st.nextId }] },
    nextId := st.nextId + 1 }

/-- FilterOption.add_group. -/
def addGroup (st : FQState) : FQState :=
  { st with
    option := { st.option with groups := st.option.groups ++ [{ id := st.nextId }] },
    nextId := st.nextId + 1 }

def lastPart? (st : FQState) : Option PartM := st.option.parts.getLast?

def lastLogical? (st : FQState) : Option LogicalM := st.option.logicals.getLast?

def lastGroup? (st : FQState) : Option GroupM := st.option.groups.getLast?

def setLastPart (f : PartM → PartM) (st : FQState) : FQState :=
  { st with option := { st.option with parts := modLast f st.option.parts } }

def setLastLogical (f : LogicalM → LogicalM) (st : FQState) : FQState :=
  { st with option := { st.option with logicals := modLast f st.option.logicals } }

def setLastGroup (f : GroupM → GroupM) (st : FQState) : FQState :=
  { st with option := { st.option with groups := modLast f st.option.groups } }

/-- Mutate the group object with the given id (the Python code mutates it
through a shared reference; ids are unique here by construction). -/
def updateGroupById (gid : ℕ) (f : GroupM → GroupM) (st : FQState) : FQState :=
  { st with option := { st.option with
      groups := st.option.groups.map (fun g => if g.id = gid then f g else g) } }

/-- Stack.push (the stack holds group ids). -/
def stackPush (gid : ℕ) (st : FQState) : FQState :=
  { st with groupsStack := st.groupsStack ++ [gid] }

/-- Stack.pop(k): pop k elements, returning the last one popped (none when
the stack ran out, as Python's pop of an empty stack yields None). -/
def stackPopN : ℕ → List ℕ → Option ℕ × List ℕ
  | 0, s => (none, s)
  | 1, s => (s.getLast?, s.dropLast)
  | k+2, s => stackPopN (k+1) s.dropLast

/-- ProprtiesSelector.has_remaining: a bounded trigger — it returns the
remaining-properties flag and counts the call, but only while the call
count is below the CURRENT length of the required list. -/
def has_remaining (st : FQState) : Bool × FQState :=
  if st.selector.required.length ≤ st.selector.timesCalled then (false, st)
  else (st.selector.hasRemainingFlag,
        { st with selector := { st.selector with timesCalled := st.selector.timesCalled + 1 } })

/-- ProprtiesSelector.has_filterable (Python truthiness of the list). -/
def has_filterable (st : FQState) : Bool := !st.selector.filterable.isEmpty

/-- ProprtiesSelector._init_tuples.  The set difference of Python is by
object identity; required properties are members of the filterable list,
so it is the by-name difference here.  Note that the non-required group
wraps the FULL filterable list. -/
def initSelector (filterable required : List Proprty) : SelectorM :=
  let nonRequired := filterable.filter (fun p => !(required.any (fun q => q.name == p.name)))
  let tuples :=
    if !nonRequired.isEmpty then
      if !required.isEmpty then
        [(PoolKind.nonRequired, (1 : ℚ)/100), (PoolKind.required, 99/100)]
      else [(PoolKind.nonRequired, 1), (PoolKind.required, 0)]
    else [(PoolKind.nonRequired, 0), (PoolKind.required, 1)]
  { filterable := filterable, required := required,
    hasRemainingFlag := !required.isEmpty, timesCalled := 0, tuples := tuples }

/-- ProprtiesSelector._update_remaining_proprties: once the required pool
is emptied, drop the required tuple and give the non-required group (over
the full filterable list) weight 1. -/
def update_remaining_proprties (st : FQState) : Option FQState :=
  if st.selector.hasRemainingFlag then
    match st.selector.tuples.get? 1 with
    | none => none
    | some _ =>
      if st.selector.required.isEmpty then
        some { st with selector := { st.selector with
          hasRemainingFlag := false,
          tuples := [(PoolKind.nonRequired, 1)] } }
      else some st
  else some st

/-- RequiredProprties.get_proprty: pop a pyRound-indexed random element
from the required pool. -/
def required_get_proprty (req : List Proprty) (r : ℚ) : Option (Proprty × List Proprty) :=
  pyPopL req (pyRound (r * ((req.length : ℚ) - 1)))

/-- NonRequiredProprties.get_proprty: read a pyRound-indexed random element
of the filterable list, deleting it only when its filter restriction is
single-value.  Returns the property and the list left behind. -/
def non_required_get_proprty (filt : List Proprty) (r : ℚ) :
    Option (Proprty × List Proprty) :=
  match pyPopL filt (pyRound (r * ((filt.length : ℚ) - 1))) with
  | none => none
  | some (p, rest) =>
    if p.filterRestriction == some "single-value" then some (p, rest)
    else some (p, filt)

/-- ProprtiesSelector.get_random_proprty: weighted choice between the two
pools, then the pool draw, then the remaining-properties update. -/
def get_random_proprty (st : FQState) : Option (Proprty × FQState) :=
  let (r1, st) := drawQ st
  match weighted_random r1 st.selector.tuples with
  | none => none
  | some pool =>
    let (r2, st) := drawQ st
    match pool with
    | .required =>
      match required_get_proprty st.selector.required r2 with
      | none => none
      | some (p, rest) =>
        let st := { st with selector := { st.selector with required := rest } }
        (update_remaining_proprties st).map (fun st => (p, st))
    | .nonRequired =>
      match non_required_get_proprty st.selector.filterable r2 with
      | none => none
      | some (p, rest) =>
        let st := { st with selector := { st.selector with filterable := rest } }
        (update_remaining_proprties st).map (fun st => (p, st))

/-- FilterQuery._update_left_logical_references. -/
def update_left_logical_references (st : FQState) : Option FQState := do
  let st := match st.groupsStack.getLast? with
    | some gid => setLastLogical (fun l => { l with group_id := some gid }) st
    | none => st
  let lp ← lastPart? st
  let ll ← lastLogical? st
  let st := setLastLogical (fun l => { l with left_id := some lp.id }) st
  some (setLastPart (fun p => { p with right_id := some ll.id }) st)

/-- FilterQuery._set_right_logical_references. -/
def set_right_logical_references (st : FQState) : Option FQState := do
  let ll ← lastLogical? st
  let lp ← lastPart? st
  let st := setLastLogical (fun l => { l with right_id := some lp.id }) st
  let st := setLastPart (fun p => { p with left_id := some ll.id }) st
  match st.groupsStack.getLast? with
  | some gid =>
    let st := updateGroupById gid (fun g => { g with logicals := g.logicals ++ [ll.id] }) st
    some (setLastLogical (fun l => { l with group_id := some gid }) st)
  | none => some st

/-- FilterQuery._update_right_logical_references. -/
def update_right_logical_references (st : FQState) : Option FQState :=
  if st.rightPart then set_right_logical_references { st with rightPart := false }
  else some st

/-- FilterQuery._update_proprty_part (on the last added part). -/
def update_proprty_part (pname op operand : String) (repl : Bool) (st : FQState) :
    Option FQState := do
  let _ ← lastPart? st
  some (setLastPart (fun p =>
    { p with name := some pname, operator := some op,
             operand := some operand, replaceable := some repl }) st)

/-- FilterQuery._generate_sap_restricted: append the connective and a fresh
comparison part on the given property with the given operator. -/
def generate_sap_restricted (p : Proprty) (logical op : String) (st : FQState) :
    Option FQState := do
  let st := { st with optionString := st.optionString ++ " " ++ logical ++ " " }
  let st := addLogical st
  let st := setLastLogical (fun l => { l with name := some logical }) st
  let st ← update_left_logical_references st
  let st := addPart st
  let (r, st) := drawQ st
  let operand := p.gen r
  let st := { st with optionString := st.optionString ++ p.name ++ " " ++ op ++ " " ++ operand }
  update_proprty_part p.name op operand p.replaceable st

/-- FilterQuery._generate_next_interval_value. -/
def generate_next_interval_value (p : Proprty) (op : String) (st : FQState) :
    Option FQState := do
  let st ← generate_sap_restricted p "and" op st
  set_right_logical_references st

/-- FilterQuery._generate_interval_values: no companion for eq, otherwise
one companion with the complementary bound operator joined by and. -/
def generate_interval_values (p : Proprty) (usedOp : String) (st : FQState) :
    Option FQState :=
  if usedOp ≠ "eq" then
    generate_next_interval_value p (if usedOp = "le" then "ge" else "le") st
  else some st

/-- The loop body of _generate_multi_values. -/
def sapLoop (p : Proprty) (op : String) : ℕ → FQState → Option FQState
  | 0, st => some st
  | n+1, st => do
    let st ← generate_sap_restricted p "or" op st
    let st ← set_right_logical_references st
    sapLoop p op n st

/-- FilterQuery._generate_multi_values: 1..MAX_MULTI_VALUES companions on
the same property joined by or. -/
def generate_multi_values (cfg : FQConfig) (p : Proprty) (op : String) (st : FQState) :
    Option FQState :=
  let (r, st) := drawQ st
  sapLoop p op (pyRound (r * ((cfg.maxMultiValues : ℚ) - 1) + 1)).toNat st

/-- The generate_remaining_proprties capability installed by
FilterQuery._set_generators_for_restricted_proprties, dispatched on the
property's filter restriction. -/
def generate_remaining_proprties (cfg : FQConfig) (p : Proprty) (op : String)
    (st : FQState) : Option FQState :=
  match p.filterRestriction with
  | some r =>
    if r = "interval" then generate_interval_values p op st
    else if r = "multi-value" then generate_multi_values cfg p op st
    else some st
  | none => some st

/-- FilterQuery._generate_proprty. -/
def generate_proprty (cfg : FQConfig) (st : FQState) : Option FQState := do
  let (p, st) ← get_random_proprty st
  let (r1, st) := drawQ st
  let op ← weighted_random r1 p.operators
  let (r2, st) := drawQ st
  let operand := p.gen r2
  let st := { st with optionString := st.optionString ++ p.name ++ " " ++ op ++ " " ++ operand }
  let st ← update_proprty_part p.name op operand p.replaceable st
  let st ← update_right_logical_references st
  generate_remaining_proprties cfg p op st

/-- random.choice, modelled as one index draw into the sequence. -/
def pyChoice {α : Type} (r : ℚ) (xs : List α) : Option α :=
  xs.get? (⌊r * (xs.length : ℚ)⌋).toNat

/-- FilterQuery._generate_function (+ _update_function_part): pick a family
wrapper and one of its func_ methods, build the call, draw an operator for
its return type and a right-hand literal. -/
def generate_function (cfg : FQConfig) (st : FQState) : Option FQState := do
  let (r1, st) := drawQ st
  let fam ← pyChoice r1 cfg.functionsGroup
  let (r2, st) := drawQ st
  let fn ← pyChoice r2 fam
  let (r3, st) := drawQ st
  let g := fn r3
  let (r4, st) := drawQ st
  let op ← weighted_random r4 g.operators
  let (r5, st) := drawQ st
  let operand := g.operandGen r5
  let st := { st with
    optionString := st.optionString ++ g.generatedString ++ " " ++ op ++ " " ++ operand }
  let _ ← lastPart? st
  let st := setLastPart (fun pt =>
    { pt with name := some g.generatedString, operator := some op, operand := some operand,
              proprtiesUsed := some g.proprtiesUsed, params := some g.params,
              func := some g.funcName, returnType := some g.returnType }) st
  update_right_logical_references st

/-- FilterQuery._generate_element: a fresh part, then a function comparison
with probability FUNCTION_WEIGHT (falling back to a property comparison
when the functions group is empty, as _noterm_function is bound at init),
else a property comparison. -/
def generate_element (cfg : FQConfig) (st : FQState) : Option FQState :=
  let st := addPart st
  let (r, st) := drawQ st
  if r < cfg.functionWeight then
    (if cfg.functionsGroup.isEmpty then generate_proprty cfg st else generate_function cfg st)
  else generate_proprty cfg st

/-- FilterQuery._noterm_logical. -/
def noterm_logical (cfg : FQConfig) (st : FQState) : Option FQState := do
  let (r, st) := drawQ st
  let op ← weighted_random r cfg.logicalOperators
  let st := { st with optionString := st.optionString ++ " " ++ op ++ " " }
  let st := addLogical st
  let st := setLastLogical (fun l => { l with name := some op }) st
  let st ←
    if st.finalizingGroups ≠ 0 then do
      let (popped, stack) := stackPopN st.finalizingGroups st.groupsStack
      let st := { st with groupsStack := stack, finalizingGroups := 0 }
      let gid ← popped
      let ll ← lastLogical? st
      let st := setLastLogical (fun l => { l with left_id := some gid }) st
      some (updateGroupById gid (fun g => { g with right_id := some ll.id }) st)
    else update_left_logical_references st
  some { st with rightPart := true }

/-- FilterQuery._update_group_references (for a group opened as a right
operand). -/
def update_group_references (st : FQState) : Option FQState := do
  let lg ← lastGroup? st
  let ll ← lastLogical? st
  let st := setLastLogical (fun l => { l with right_id := some lg.id }) st
  let st := setLastGroup (fun g => { g with left_id := some ll.id }) st
  match st.groupsStack.getLast? with
  | some gid =>
    some (updateGroupById gid (fun g => { g with logicals := g.logicals ++ [ll.id] }) st)
  | none => some st

/-- The mutually recursive grammar procedures of FilterQuery, indexed by
fuel (every call consumes one unit; none means the fuel ran out before the
call tree bottomed out, or a Python-level error occurred). -/
inductive GCall where
  | expr | parent | genChild | childGroup | child | rest
  deriving DecidableEq

/-- One fuelled interpreter for _noterm_expression / _noterm_parent /
_generate_child / _generate_child_group / _noterm_child / _generate_rest,
translated clause for clause (including the evaluation order of
has_remaining and the random draws under Python's short-circuiting). -/
def runCall (cfg : FQConfig) : ℕ → GCall → FQState → Option FQState
  | 0, _, _ => none
  | n+1, c, st =>
    match c with
    | .expr =>
      let st := { st with depth := st.depth + 1 }
      let (b, st) := has_remaining st
      if b then runCall cfg n .child st
      else
        let (r, st) := drawQ st
        if r < 1/2 ∨ cfg.recursionLimit < st.depth then generate_element cfg st
        else runCall cfg n .child st
    | .parent =>
      let (b, st) := has_remaining st
      if b then runCall cfg n .genChild st
      else
        let (r, st) := drawQ st
        if r < 1/2 ∨ cfg.recursionLimit < st.depth then runCall cfg n .expr st
        else runCall cfg n .genChild st
    | .genChild =>
      let (r, st) := drawQ st
      if r < 1/2 then runCall cfg n .child st
      else
        let (b, st) := has_remaining st
        if !b then runCall cfg n .child st
        else runCall cfg n .childGroup st
    | .childGroup => do
      let st := { st with optionString := st.optionString ++ "(" }
      let st := addGroup st
      let st ← if st.rightPart then update_group_references st else some st
      let lg ← lastGroup? st
      let st := stackPush lg.id st
      let st ← runCall cfg n .child st
      some { st with finalizingGroups := st.finalizingGroups + 1,
                     optionString := st.optionString ++ ")" }
    | .child => do
      let st ← runCall cfg n .parent st
      runCall cfg n .rest st
    | .rest =>
      if has_filterable st then do
        let st ← noterm_logical cfg st
        runCall cfg n .parent st
      else some st

/-- FilterOption.delete_redundancies: drop groups with no member logicals
or no external connector, scrubbing their ids from their former members. -/
def delete_redundancies (opt : FilterOptionM) : FilterOptionM :=
  let keepGroup := fun (g : GroupM) =>
    !g.logicals.isEmpty && (g.right_id.isSome || g.left_id.isSome)
  let redundant := (opt.groups.filter (fun g => !keepGroup g)).map (fun g => g.id)
  { opt with
    groups := opt.groups.filter keepGroup,
    logicals := opt.logicals.map (fun l =>
      match l.group_id with
      | some gid => if gid ∈ redundant then { l with group_id := none } else l
      | none => l) }

/-- FilterQuery.__init__ marking of required properties: setattr writes the
replaceable := false flag onto the shared property objects, which the
filterable list also sees. -/
def filter_query_mark_required (draft : Option String) (ps : List Proprty) : List Proprty :=
  ps.map (fun p =>
    if p.requiredInFilter || draft == some p.name then { p with replaceable := false } else p)

/-- The required-property list collected by _init_required_proprties. -/
def filter_query_required (draft : Option String) (ps : List Proprty) : List Proprty :=
  (filter_query_mark_required draft ps).filter
    (fun p => p.requiredInFilter || draft == some p.name)

/-- FilterQuery._init_variables: the fresh per-round state. -/
def initFQState (proprties : List Proprty) (draft : Option String)
    (stream : ℕ → ℚ) : FQState :=
  let filterable := filter_query_mark_required draft proprties
  { depth := 0, finalizingGroups := 0, rightPart := false,
    option := {}, groupsStack := [], optionString := "",
    selector := initSelector filterable (filter_query_required draft proprties),
    nextId := 0, stream := stream, pos := 0 }

/-- The result of one FilterQuery.generate() round: the graph after the
post-processing plus the rendered option string. -/
structure GenResult where
  logicals : List LogicalM
  parts : List PartM
  groups : List GroupM
  optionString : String
  deriving DecidableEq

/-- FilterQuery._generate_string: the single-leaf fast path applies only
when there are no required properties (and then with probability
SINGLE_VALUE_PROB); otherwise the grammar is entered at
_noterm_expression. -/
def generate_string (cfg : FQConfig) (fuel : ℕ) (st0 : FQState) : Option FQState :=
  if st0.selector.required.isEmpty then
    let (r, st) := drawQ st0
    if r < cfg.singleValueProb then generate_proprty cfg (addPart st)
    else runCall cfg fuel .expr st
  else runCall cfg fuel .expr st0

/-- The post-processing of FilterQuery.generate: reverse the logicals,
delete redundant groups, attach the rendered string. -/
def fq_postprocess (st : FQState) : GenResult :=
  let opt := delete_redundancies
    { st.option with logicals := st.option.logicals.reverse }
  { logicals := opt.logicals, parts := opt.parts, groups := opt.groups,
    optionString := st.optionString }

/-- FilterQuery.generate: _init_variables, _generate_string, then the
logical reversal and the redundancy deletion. -/
def fq_generate (cfg : FQConfig) (proprties : List Proprty) (draft : Option String)
    (stream : ℕ → ℚ) (fuel : ℕ) : Option GenResult :=
  (generate_string cfg fuel (initFQState proprties draft stream)).map fq_postprocess

/-- Termination of one generate() round on a given random stream: some
fuel suffices for the call tree to bottom out. -/
def generateTerminates (cfg : FQConfig) (proprties : List Proprty)
    (draft : Option String) (stream : ℕ → ℚ) : Prop :=
  ∃ fuel, (fq_generate cfg proprties draft stream fuel).isSome

/-- The concrete configuration of the runs below; the numeric values stand
in for the unavailable odfuzz.constants and an empty functions group. -/
def fixCfg : FQConfig :=
  { recursionLimit := 3, singleValueProb := 1/5, functionWeight := 3/10,
    maxMultiValues := 3, logicalOperators := [("and", 1/2), ("or", 1/2)],
    functionsGroup := [] }

/-- Fixture: a property that is required in the filter. -/
def propA : Proprty :=
  { name := "A", typ := "Edm.Guid", requiredInFilter := true,
    operators := [("eq", 1)], gen := fun _ => "a1" }

/-- Fixture: a plain non-required property. -/
def propB : Proprty :=
  { name := "B", typ := "Edm.Guid", operators := [("eq", 1)], gen := fun _ => "b1" }

/-- C6 fixture: an interval-restricted decimal property whose single
weighted operator is eq. -/
def propPeq : Proprty :=
  { name := "P", typ := "Edm.Decimal", filterRestriction := some "interval",
    operators := [("eq", 1)], gen := fun _ => "7" }

/-- A random stream read off a finite list of draws (0 beyond its end). -/
def streamOfList (l : List ℚ) : ℕ → ℚ := fun n => (l.get? n).getD 0

/-- The adversarial stream for C1: every draw is 9/10. -/
def stream09 : ℕ → ℚ := fun _ => 9/10

/-- The C2 draw sequence: enter the grammar, expand twice, and let both
weighted pool draws (0.005 < 0.01) pick the non-required group. -/
def c2Stream : ℕ → ℚ :=
  streamOfList [4/10, 4/10, 9/10, 5/1000, 9/10, 0, 0, 2/10, 4/10, 4/10, 9/10, 5/1000, 9/10, 0, 0]

/-- The C6 draw sequence: the single-leaf fast path on the interval
property with the eq operator. -/
def c6Stream : ℕ → ℚ := streamOfList [1/10, 5/10, 0, 0, 0]

/-- The state after the single-value draw of the C1 run (pos already 1). -/
def c1State1 : FQState := { initFQState [propB] none stream09 with pos := 1 }

/-- A concrete state whose forced-continuation budget is spent and whose
recursion depth exceeds the fixture's recursion limit. -/
def c1WitState : FQState := { initFQState [propB] none stream09 with depth := 5 }

/-- C6 witness fixture: a state holding one already-generated comparison
part. -/
def c6WitState : FQState := addPart (initFQState [propPeq] none c6Stream)

/-! ## Theorems -/

/-! ### pyRound bounds -/

theorem pyRound_le_ceil (q : ℚ) : pyRound q ≤ ⌈q⌉ := by
  unfold pyRound
  split
  · next h =>
    have hfl : (⌊q⌋ : ℚ) = q - 1/2 := by
      rw [Int.fract] at h
      linarith
    have hlt : ⌊q⌋ < ⌈q⌉ := by
      have h1 : (⌊q⌋ : ℚ) < q := by rw [hfl]; linarith
      have h2 : q ≤ (⌈q⌉ : ℚ) := Int.le_ceil q
      exact_mod_cast h1.trans_le h2
    have hle : ⌈q⌉ ≤ ⌊q⌋ + 1 := Int.ceil_le_floor_add_one q
    split <;> omega
  · next h =>
    have hr : round q = ⌊q + 1/2⌋ := round_eq q
    rw [hr]
    have h1 : q + 1/2 < ((⌈q⌉ + 1 : ℤ) : ℚ) := by
      have := Int.le_ceil q
      push_cast
      linarith
    have := Int.floor_lt.mpr h1
    omega

theorem floor_le_pyRound (q : ℚ) : ⌊q⌋ ≤ pyRound q := by
  unfold pyRound
  split
  · split <;> omega
  · have hr : round q = ⌊q + 1/2⌋ := round_eq q
    rw [hr]
    have : (⌊q⌋ : ℚ) ≤ q := Int.floor_le q
    have h1 : (⌊q⌋ : ℚ) ≤ q + 1/2 := by linarith
    exact Int.le_floor.mpr h1

theorem pyRound_nonneg {q : ℚ} (h : 0 ≤ q) : 0 ≤ pyRound q := by
  have := floor_le_pyRound q
  have h0 : (0 : ℤ) ≤ ⌊q⌋ := by
    have hc : ((0 : ℤ) : ℚ) ≤ q := by exact_mod_cast h
    exact Int.le_floor.mpr hc
  omega

theorem pyRound_le_of_le {q : ℚ} {m : ℤ} (h : q ≤ (m : ℚ)) : pyRound q ≤ m := by
  have h1 : pyRound q ≤ ⌈q⌉ := pyRound_le_ceil q
  have h2 : ⌈q⌉ ≤ m := Int.ceil_le.mpr h
  omega

/-! ### weighted_random -/

theorem weighted_random_eq_spec_aux {α : Type} (r : ℚ) :
    ∀ (l : List (α × ℚ)) (acc : ℚ),
      weightedRandomSpec r acc l = weighted_random (r - acc) l := by
  intro l
  induction l with
  | nil => intro acc; rfl
  | cons hd tl ih =>
    intro acc
    obtain ⟨v, w⟩ := hd
    simp only [weightedRandomSpec, weighted_random]
    by_cases h : r - acc < w
    · rw [if_pos h, if_pos h]
    · rw [if_neg h, if_neg h, ih]
      congr 1
      ring

theorem weighted_random_mem {α : Type} {r : ℚ} {v : α} :
    ∀ {l : List (α × ℚ)}, weighted_random r l = some v → v ∈ l.map Prod.fst := by
  intro l
  induction l generalizing r with
  | nil => intro h; simp [weighted_random] at h
  | cons hd tl ih =>
    intro h
    obtain ⟨x, w⟩ := hd
    simp only [weighted_random] at h
    by_cases hc : r < w
    · rw [if_pos hc] at h
      simp only [Option.some.injEq] at h
      simp [h]
    · rw [if_neg hc] at h
      simp only [List.map_cons, List.mem_cons]
      exact Or.inr (ih h)

/-- C7: weighted_random is the deterministic scan the spec describes:
for every item sequence and draw it returns the first value in scan order
whose weight exceeds the draw after the preceding weights have been
subtracted from it, and the no-match result (none) when the scan
exhausts. -/
theorem c7_weighted_random_spec {α : Type} (r : ℚ) (items : List (α × ℚ)) :
    weighted_random r items = weightedRandomSpec r 0 items := by
  rw [weighted_random_eq_spec_aux]
  congr 1
  ring

/-! ### C10: unhandled Edm types get the None generator -/

/-- C10: the installed capability is the None-returning lambda exactly when
the type tag is outside the handled set (any other tag, including an
Edm.Int variant whose suffix is not 16/32/64, yields no operand). -/
theorem c10_unhandled_generator (t : String) :
    patch_proprty_generator t = .constNone ↔ handledEdmType t = false := by
  by_cases h1 : t = "Edm.String"
  · subst h1; decide
  by_cases h2 : t = "Edm.DateTime"
  · subst h2; decide
  by_cases h3 : t = "Edm.Boolean"
  · subst h3; decide
  by_cases h4 : t = "Edm.Byte"
  · subst h4; decide
  by_cases h5 : t = "Edm.SByte"
  · subst h5; decide
  by_cases h6 : t = "Edm.Single"
  · subst h6; decide
  by_cases h7 : t = "Edm.Guid"
  · subst h7; decide
  by_cases h8 : t = "Edm.Decimal"
  · subst h8; decide
  by_cases h9 : t = "Edm.DateTimeOffset"
  · subst h9; decide
  by_cases h10 : t = "Edm.Time"
  · subst h10; decide
  by_cases h11 : t = "Edm.Binary"
  · subst h11; decide
  unfold patch_proprty_generator handledEdmType
  rw [if_neg h1, if_neg h2, if_neg h3, if_neg h4, if_neg h5, if_neg h6,
      if_neg h7, if_neg h8, if_neg h9, if_neg h10, if_neg h11,
      beq_eq_false_iff_ne.mpr h1, beq_eq_false_iff_ne.mpr h2,
      beq_eq_false_iff_ne.mpr h3, beq_eq_false_iff_ne.mpr h4,
      beq_eq_false_iff_ne.mpr h5, beq_eq_false_iff_ne.mpr h6,
      beq_eq_false_iff_ne.mpr h7, beq_eq_false_iff_ne.mpr h8,
      beq_eq_false_iff_ne.mpr h9, beq_eq_false_iff_ne.mpr h10,
      beq_eq_false_iff_ne.mpr h11]
  simp only [Bool.false_or]
  cases hs : strStartsWith t "Edm.Int"
  · simp [hs]
  · cases h16 : strEndsWith t "16"
    · cases h32 : strEndsWith t "32"
      · cases h64 : strEndsWith t "64"
        · simp [hs, h16, h32, h64]
        · simp [hs, h16, h32, h64]
      · simp [hs, h16, h32]
    · simp [hs, h16]

/-! ### C8: probe failure degrades to INT_MAX -/

/-- C8: a dispatcher error or an unparsable count body make
_get_total_entities fall back to INT_MAX rather than raise, and
_set_max_range then completes normally with the INT_MAX/1000 weight dict
(construction of the group proceeds). -/
theorem c8_probe_failure :
    get_total_entities .dispatchError = INT_MAX ∧
    get_total_entities (.response none) = INT_MAX ∧
    top_set_max_range none .dispatchError = [(INT_MAX, 1/1000), (1000, 999/1000)] ∧
    top_set_max_range none (.response none) = [(INT_MAX, 1/1000), (1000, 999/1000)] :=
  of_decide_eq_true (by with_unfolding_all rfl)

/-! ### C4: the skip/top range dependency -/

/-- C4 counterexample: a round where SkipQuery.generate yields S = 500 and
TopQuery.generate then yields T = 1000 although the configured maximum
range (count probe 5000 capped at 1000) is 1000: S + T = 1500 exceeds
the configured maximum, only the INT_MAX bound holds. -/
theorem c4_counterexample :
    skip_generate (skip_set_max_range none) (1/2) none (500/2147483647) = some 500 ∧
    top_generate (top_set_max_range none (.response (some 5000))) (1/2) (some 500)
      (9999/10000) = some 1000 ∧
    configuredMaxRange none (.response (some 5000)) = 1000 ∧
    (500 : ℤ) + 1000 > configuredMaxRange none (.response (some 5000)) ∧
    (500 : ℤ) + 1000 ≤ INT_MAX :=
  of_decide_eq_true (by with_unfolding_all rfl)

/-- C4 amended: the bound TopQuery.generate actually enforces against the
depending skip value S is S + T ≤ INT_MAX (for any weight dict whose range
keys lie in [0, INT_MAX] and any S in [0, INT_MAX]); the configured
maximum range only weights the selection and S + T may exceed it. -/
theorem c4_amended (items : List (ℤ × ℚ)) (rSel rTop : ℚ) (s t : ℤ)
    (hkeys : ∀ kv ∈ items, 0 ≤ kv.1 ∧ kv.1 ≤ INT_MAX)
    (hs0 : 0 ≤ s) (hsI : s ≤ INT_MAX) (hr0 : 0 ≤ rTop) (hr1 : rTop < 1)
    (hgen : top_generate items rSel (some s) rTop = some t) :
    s + t ≤ INT_MAX := by
  unfold top_generate at hgen
  cases hsel : weighted_random rSel items with
  | none => rw [hsel] at hgen; exact absurd hgen (by simp)
  | some sel =>
    rw [hsel] at hgen
    simp only [Option.some.injEq] at hgen
    obtain ⟨kv, hkv, hfst⟩ := List.mem_map.mp (weighted_random_mem hsel)
    obtain ⟨hsel0, hselI⟩ := hkeys kv hkv
    rw [hfst] at hsel0 hselI
    subst hgen
    split_ifs with hc
    · have hmr0 : (0 : ℤ) ≤ INT_MAX - s := by omega
      have hmul : rTop * ((INT_MAX - s : ℤ) : ℚ) ≤ ((INT_MAX - s : ℤ) : ℚ) :=
        mul_le_of_le_one_left (by exact_mod_cast hmr0) hr1.le
      have ht := pyRound_le_of_le hmul
      omega
    · have hmul : rTop * ((sel : ℤ) : ℚ) ≤ ((sel : ℤ) : ℚ) :=
        mul_le_of_le_one_left (by exact_mod_cast hsel0) hr1.le
      have ht := pyRound_le_of_le hmul
      push_neg at hc
      by_cases hz : s = 0
      · omega
      · have := hc hz
        omega

theorem c4_amended_witness : (3 : ℤ) + 2 ≤ INT_MAX :=
  c4_amended [((5 : ℤ), 1)] 0 (2/5) 3 2
    (of_decide_eq_true (by with_unfolding_all rfl))
    (of_decide_eq_true (by with_unfolding_all rfl))
    (of_decide_eq_true (by with_unfolding_all rfl))
    (of_decide_eq_true (by with_unfolding_all rfl))
    (of_decide_eq_true (by with_unfolding_all rfl))
    (of_decide_eq_true (by with_unfolding_all rfl))

/-! ### C5: QueryGroup initialization and the original entity set -/

/-- C5 counterexample: building the filter option with restrictions present
flips the requires-filter flag on the ORIGINAL entity set (line
self._entity_set._req_filter = needs_filter), so a field of the original
entity set changes during QueryGroup initialization. -/
theorem c5_counterexample :
    c5EntitySet.requiresFilter = false ∧
    (query_group_init_original c5EntitySet (some [("Orders", ["Id"])]) []).requiresFilter
      = true := by
  decide

/-- C5 amended: restriction-driven property removal operates on a deep copy,
so the original entity set's property collection, navigation properties and
the addressable/topable/pageable flags are unchanged by QueryGroup
initialization; but its requires-filter flag is reassigned, becoming true
whenever a filter restriction object is supplied. -/
theorem c5_amended (es : EntitySetM) (restrOpt : Option (List (String × List String)))
    (draft : List String) :
    (query_group_init_original es restrOpt draft).name = es.name ∧
    (query_group_init_original es restrOpt draft).proprties = es.proprties ∧
    (query_group_init_original es restrOpt draft).navProprties = es.navProprties ∧
    (query_group_init_original es restrOpt draft).addressable = es.addressable ∧
    (query_group_init_original es restrOpt draft).topable = es.topable ∧
    (query_group_init_original es restrOpt draft).pageable = es.pageable ∧
    (query_group_init_original es restrOpt draft).requiresFilter =
      (match restrOpt with
        | some _ => true
        | none => es.requiresFilter) := by
  cases restrOpt <;> exact ⟨rfl, rfl, rfl, rfl, rfl, rfl, rfl⟩

/-! ### C9: the exclude mapping is mutated in place -/

theorem pyDictGet_map_append {old glob : List String} (name : String) :
    ∀ (ex : List (String × List String)), pyDictGet ex name = some old →
      pyDictGet (ex.map (fun kv => if kv.1 = name then (kv.1, kv.2 ++ glob) else kv)) name
        = some (old ++ glob) := by
  intro ex
  induction ex with
  | nil => intro h; simp [pyDictGet] at h
  | cons hd tl ih =>
    intro h
    obtain ⟨k, v⟩ := hd
    by_cases hk : k = name
    · subst hk
      simp only [pyDictGet, List.map_cons, if_pos rfl] at h ⊢
      rw [List.find?_cons_of_pos _ (by simp)] at h ⊢
      simp only [Option.map_some'] at h ⊢
      simp only [Option.some.injEq] at h
      rw [h]
      simp
    · simp only [pyDictGet, List.map_cons, if_neg hk] at h ⊢
      rw [List.find?_cons_of_neg _ (by simp [hk])] at h ⊢
      exact ih h

/-- C9: when the exclude mapping holds an entry keyed by the entity set's
own name, _delete_restricted_proprties leaves the caller's exclude mapping
with the global property exclusions appended onto that entry (the
list.extend writes through to the shared restrictions object). -/
theorem c9_exclude_mutation (es : EntitySetM) (ex : List (String × List String))
    (attr : Proprty → Bool) (draft : List String) (old : List String)
    (hmem : pyDictGet ex es.name = some old) :
    pyDictGet (((delete_restricted_proprties es (some ex) attr draft).2).getD []) es.name
      = some (old ++ (pyDictGet ex GLOBAL_PROPRTY).getD []) := by
  have hne : ex ≠ [] := by
    intro h
    subst h
    simp [pyDictGet] at hmem
  have hempty : ex.isEmpty = false := by
    cases ex with
    | nil => exact absurd rfl hne
    | cons a l => rfl
  have hsome : (pyDictGet ex es.name).isSome = true := by rw [hmem]; rfl
  unfold delete_restricted_proprties
  simp only [hempty, Bool.false_eq_true, if_false, hsome, if_true]
  have hold : (pyDictGet ex es.name).getD [] = old := by rw [hmem]; rfl
  simpa using pyDictGet_map_append es.name ex hmem

theorem c9_exclude_mutation_witness :
    pyDictGet (((delete_restricted_proprties c9EntitySet
        (some [("Cars", ["A"]), ("$P_ALL$", ["B"])])
        (fun p => p.filterable) []).2).getD []) c9EntitySet.name
      = some (["A"] ++ (pyDictGet [("Cars", ["A"]), ("$P_ALL$", ["B"])] GLOBAL_PROPRTY).getD []) :=
  c9_exclude_mutation c9EntitySet [("Cars", ["A"]), ("$P_ALL$", ["B"])]
    (fun p => p.filterable) [] ["A"] (by decide)

/-! ### C3: function exclusion leaks through the shared class -/

/-- C3 code evaluation at the failing input: two entity sets whose
FilterFunctionsGroup instances share the StringFilterFunctions class;
before any restriction the second entity set exposes substringof, but after
the first entity set's group applies the exclusion (delattr on the shared
class) the second entity set's group no longer exposes it — the exclusion
is not scoped to one family instance. -/
theorem c3_code_eval :
    "func_substringof" ∈ exposedFunctions initialClassTables c3GroupKeys2 ∧
    "func_substringof" ∉ exposedFunctions
        (apply_function_restrictions initialClassTables c3GroupKeys1
          [(GLOBAL_FUNCTION, ["substringof"])]).1 c3GroupKeys2 := by
  decide

/-! ### C1: termination of filter-expression generation -/

theorem has_remaining_of_req_nil {st : FQState} (h : st.selector.required = []) :
    has_remaining st = (false, st) := by
  unfold has_remaining
  rw [if_pos (by rw [h]; exact Nat.zero_le _)]

theorem c1_cycle_aux (cfg : FQConfig) :
    ∀ (n : ℕ) (st : FQState), st.selector.required = [] →
      (∀ k, st.stream k = 9/10) →
      st.depth ≤ cfg.recursionLimit →
      runCall cfg n .parent st = none ∧ runCall cfg n .child st = none ∧
        runCall cfg n .genChild st = none := by
  intro n
  induction n with
  | zero => intro st _ _ _; exact ⟨rfl, rfl, rfl⟩
  | succ n ih =>
    intro st h1 h2 h3
    have hb := has_remaining_of_req_nil h1
    have hb' := has_remaining_of_req_nil
      (show ({ st with pos := st.pos + 1 } : FQState).selector.required = [] from h1)
    have hcond : ¬((9:ℚ)/10 < 1/2 ∨ cfg.recursionLimit < st.depth) := by
      push_neg
      exact ⟨by norm_num, by omega⟩
    have hnlt : ¬((9:ℚ)/10 < 1/2) := by norm_num
    refine ⟨?_, ?_, ?_⟩
    · show runCall cfg (n+1) .parent st = none
      simp only [runCall, hb, drawQ, h2, Bool.false_eq_true, if_false, if_neg hcond]
      exact (ih { st with pos := st.pos + 1 } h1 h2 h3).2.2
    · show runCall cfg (n+1) .child st = none
      have hp := (ih st h1 h2 h3).1
      simp only [runCall, hp]
      rfl
    · show runCall cfg (n+1) .genChild st = none
      simp only [runCall, drawQ, h2, if_neg hnlt, hb', Bool.not_false, if_true]
      exact (ih { st with pos := st.pos + 1 } h1 h2 h3).2.1

theorem c1_generate_none (fuel : ℕ) :
    fq_generate fixCfg [propB] none stream09 fuel = none := by
  have hrun : generate_string fixCfg fuel (initFQState [propB] none stream09) = none := by
    unfold generate_string
    rw [if_pos (show (initFQState [propB] none stream09).selector.required.isEmpty = true by
      with_unfolding_all rfl)]
    have hdraw : drawQ (initFQState [propB] none stream09) = (9/10, c1State1) := by
      with_unfolding_all rfl
    simp only [hdraw]
    rw [if_neg (show ¬((9:ℚ)/10 < fixCfg.singleValueProb) by
      show ¬((9:ℚ)/10 < 1/5); norm_num)]
    cases fuel with
    | zero => rfl
    | succ n =>
      have h1 : ({ c1State1 with depth := c1State1.depth + 1 } : FQState).selector.required = [] := by
        with_unfolding_all rfl
      have hb := has_remaining_of_req_nil h1
      show runCall fixCfg (n+1) .expr c1State1 = none
      simp only [runCall, hb, Bool.false_eq_true, if_false, drawQ]
      rw [if_neg (show ¬(c1State1.stream c1State1.pos < 1/2 ∨
          fixCfg.recursionLimit < c1State1.depth + 1) from fun h => by
        rcases h with h | h
        · revert h
          show ¬((9:ℚ)/10 < 1/2)
          norm_num
        · revert h
          show ¬((3:ℕ) < 0 + 1)
          omega)]
      exact (c1_cycle_aux fixCfg n _ (by with_unfolding_all rfl) (fun k => rfl)
        (by show 0 + 1 ≤ 3; omega)).2.1
  unfold fq_generate
  rw [hrun]
  rfl

/-- C1 counterexample: generation does NOT terminate for every random
sequence.  On the stream whose every draw is 9/10 (with one plain
non-required property), the cycle _noterm_parent, _generate_child,
_noterm_child never increments the recursion depth, so no amount of fuel
makes FilterQuery.generate return. -/
theorem c1_counterexample : ¬ generateTerminates fixCfg [propB] none stream09 := by
  rintro ⟨fuel, h⟩
  rw [c1_generate_none fuel] at h
  simp at h

theorem modLast_length {α : Type} (f : α → α) :
    ∀ (l : List α), (modLast f l).length = l.length := by
  intro l
  induction l with
  | nil => rfl
  | cons a t ih =>
    cases t with
    | nil => rfl
    | cons b r =>
      show (a :: modLast f (b :: r)).length = (a :: b :: r).length
      simp [ih]

theorem modLast_ne_nil {α : Type} (f : α → α) {l : List α} (h : l ≠ []) :
    modLast f l ≠ [] := by
  intro hc
  apply h
  have hlen := modLast_length f l
  rw [hc] at hlen
  exact List.length_eq_zero.mp hlen.symm

theorem getLast?_modLast {α : Type} (f : α → α) :
    ∀ (l : List α), (modLast f l).getLast? = l.getLast?.map f := by
  intro l
  induction l with
  | nil => rfl
  | cons a t ih =>
    cases t with
    | nil => rfl
    | cons b r =>
      show (a :: modLast f (b :: r)).getLast? = ((a :: b :: r).getLast?).map f
      cases hm : modLast f (b :: r) with
      | nil => exact absurd hm (modLast_ne_nil f (by simp))
      | cons c cs =>
        calc (a :: c :: cs).getLast?
            = (c :: cs).getLast? := List.getLast?_cons_cons
          _ = (modLast f (b :: r)).getLast? := by rw [hm]
          _ = ((b :: r).getLast?).map f := ih
          _ = ((a :: b :: r).getLast?).map f := by rw [List.getLast?_cons_cons]

theorem weighted_random_isSome {α : Type} :
    ∀ {l : List (α × ℚ)} {r : ℚ}, 0 ≤ r → r < (l.map Prod.snd).sum →
      (weighted_random r l).isSome := by
  intro l
  induction l with
  | nil =>
    intro r h0 h1
    simp at h1
    linarith
  | cons hd tl ih =>
    intro r h0 h1
    obtain ⟨v, w⟩ := hd
    simp only [weighted_random]
    by_cases h : r < w
    · rw [if_pos h]; rfl
    · rw [if_neg h]
      push_neg at h
      apply ih (by linarith)
      simp only [List.map_cons, List.sum_cons] at h1
      linarith

theorem pyPopL_rand_isSome {α : Type} {xs : List α} (hne : xs ≠ []) {r : ℚ}
    (h0 : 0 ≤ r) (h1 : r < 1) :
    (pyPopL xs (pyRound (r * ((xs.length : ℚ) - 1)))).isSome := by
  have hlen : 1 ≤ xs.length := List.length_pos.mpr hne
  have hq0 : (0 : ℚ) ≤ r * ((xs.length : ℚ) - 1) := by
    apply mul_nonneg h0
    have hc : (1 : ℚ) ≤ (xs.length : ℚ) := by exact_mod_cast hlen
    linarith
  have hqle : r * ((xs.length : ℚ) - 1) ≤ (((xs.length : ℤ) - 1 : ℤ) : ℚ) := by
    push_cast
    have hc : (1 : ℚ) ≤ (xs.length : ℚ) := by exact_mod_cast hlen
    nlinarith
  have hi0 : 0 ≤ pyRound (r * ((xs.length : ℚ) - 1)) := pyRound_nonneg hq0
  have hile : pyRound (r * ((xs.length : ℚ) - 1)) ≤ (xs.length : ℤ) - 1 :=
    pyRound_le_of_le hqle
  unfold pyPopL pyResolveIdx
  rw [if_pos ⟨hi0, by omega⟩]
  simp only [Option.some_bind]
  have hlt : (pyRound (r * ((xs.length : ℚ) - 1))).toNat < xs.length := by omega
  cases hg : xs.get? (pyRound (r * ((xs.length : ℚ) - 1))).toNat with
  | none =>
    exfalso
    rw [List.get?_eq_none] at hg
    omega
  | some a => simp

theorem getLast?_some_of_ne_nil {α : Type} {l : List α} (h : l ≠ []) :
    ∃ a, l.getLast? = some a := by
  cases hg : l.getLast? with
  | none => exact absurd (List.getLast?_eq_none_iff.mp hg) h
  | some a => exact ⟨a, rfl⟩

theorem generate_sap_shape (p : Proprty) (lg op : String) (st : FQState)
    (hp : st.option.parts ≠ []) :
    ∃ st', generate_sap_restricted p lg op st = some st' ∧
      st'.option.parts ≠ [] ∧ st'.option.logicals ≠ [] := by
  obtain ⟨lp, hlp⟩ := getLast?_some_of_ne_nil hp
  cases hstk : st.groupsStack.getLast? with
  | none =>
    simp only [generate_sap_restricted, update_left_logical_references,
      update_proprty_part, addLogical, addPart, setLastLogical, setLastPart,
      lastPart?, lastLogical?, drawQ, hstk, hlp, getLast?_modLast,
      List.getLast?_concat, Option.map_some', Option.some_bind, Option.bind]
    refine ⟨_, rfl, ?_, ?_⟩
    · dsimp only
      repeat' apply modLast_ne_nil
      simp
    · dsimp only
      repeat' apply modLast_ne_nil
      simp
  | some gid =>
    simp only [generate_sap_restricted, update_left_logical_references,
      update_proprty_part, addLogical, addPart, setLastLogical, setLastPart,
      lastPart?, lastLogical?, drawQ, hstk, hlp, getLast?_modLast,
      List.getLast?_concat, Option.map_some', Option.some_bind, Option.bind]
    refine ⟨_, rfl, ?_, ?_⟩
    · dsimp only
      repeat' apply modLast_ne_nil
      simp
    · dsimp only
      repeat' apply modLast_ne_nil
      simp

theorem set_right_shape (st : FQState)
    (hl : st.option.logicals ≠ []) (hp : st.option.parts ≠ []) :
    ∃ st', set_right_logical_references st = some st' ∧
      st'.option.parts ≠ [] ∧ st'.option.logicals ≠ [] := by
  obtain ⟨lp, hlp⟩ := getLast?_some_of_ne_nil hp
  obtain ⟨ll, hll⟩ := getLast?_some_of_ne_nil hl
  cases hstk : st.groupsStack.getLast? with
  | none =>
    simp only [set_right_logical_references, setLastLogical, setLastPart,
      lastPart?, lastLogical?, updateGroupById, hstk, hlp, hll,
      getLast?_modLast, Option.map_some', Option.some_bind, Option.bind]
    refine ⟨_, rfl, ?_, ?_⟩
    · dsimp only
      repeat' apply modLast_ne_nil
      exact hp
    · dsimp only
      repeat' apply modLast_ne_nil
      exact hl
  | some gid =>
    simp only [set_right_logical_references, setLastLogical, setLastPart,
      lastPart?, lastLogical?, updateGroupById, hstk, hlp, hll,
      getLast?_modLast, Option.map_some', Option.some_bind, Option.bind]
    refine ⟨_, rfl, ?_, ?_⟩
    · dsimp only
      repeat' apply modLast_ne_nil
      exact hp
    · dsimp only
      repeat' apply modLast_ne_nil
      exact hl

theorem sapLoop_shape (p : Proprty) (op : String) :
    ∀ (n : ℕ) (st : FQState), st.option.parts ≠ [] →
      ∃ st', sapLoop p op n st = some st' ∧ st'.option.parts ≠ [] := by
  intro n
  induction n with
  | zero => intro st hp; exact ⟨st, rfl, hp⟩
  | succ n ih =>
    intro st hp
    obtain ⟨st1, h1, hp1, hl1⟩ := generate_sap_shape p "or" op st hp
    obtain ⟨st2, h2, hp2, hl2⟩ := set_right_shape st1 hl1 hp1
    obtain ⟨st3, h3, hp3⟩ := ih st2 hp2
    refine ⟨st3, ?_, hp3⟩
    show sapLoop p op (n+1) st = some st3
    unfold sapLoop
    rw [h1]
    show (set_right_logical_references st1).bind (sapLoop p op n) = some st3
    rw [h2]
    show sapLoop p op n st2 = some st3
    exact h3

theorem generate_remaining_isSome (cfg : FQConfig) (p : Proprty) (op : String)
    (st : FQState) (hp : st.option.parts ≠ []) :
    (generate_remaining_proprties cfg p op st).isSome := by
  unfold generate_remaining_proprties
  cases hr : p.filterRestriction with
  | none => rfl
  | some r =>
    dsimp only
    by_cases hi : r = "interval"
    · rw [if_pos hi]
      unfold generate_interval_values
      by_cases he : op ≠ "eq"
      · rw [if_pos he]
        unfold generate_next_interval_value
        obtain ⟨st1, h1, hp1, hl1⟩ :=
          generate_sap_shape p "and" (if op = "le" then "ge" else "le") st hp
        obtain ⟨st2, h2, _, _⟩ := set_right_shape st1 hl1 hp1
        rw [h1]
        show (set_right_logical_references st1).isSome
        rw [h2]
        rfl
      · rw [if_neg he]; rfl
    · rw [if_neg hi]
      by_cases hm : r = "multi-value"
      · rw [if_pos hm]
        unfold generate_multi_values
        dsimp only [drawQ]
        obtain ⟨st3, h3, _⟩ := sapLoop_shape p op
          ((pyRound ((st.stream st.pos) * ((cfg.maxMultiValues : ℚ) - 1) + 1)).toNat)
          { st with pos := st.pos + 1 } hp
        rw [h3]
        rfl
      · rw [if_neg hm]; rfl

theorem pyPopL_mem {α : Type} {xs : List α} {i : ℤ} {a : α} {rest : List α}
    (h : pyPopL xs i = some (a, rest)) : a ∈ xs := by
  unfold pyPopL at h
  cases hres : pyResolveIdx xs.length i with
  | none => rw [hres] at h; exact absurd h (by simp)
  | some j =>
    rw [hres] at h
    simp only [Option.some_bind] at h
    cases hg : xs.get? j with
    | none => rw [hg] at h; exact absurd h (by simp)
    | some b =>
      rw [hg] at h
      simp only [Option.map_some', Option.some.injEq, Prod.mk.injEq] at h
      exact h.1 ▸ List.get?_mem hg

theorem get_random_proprty_shape (st : FQState)
    (htup : st.selector.tuples = [(PoolKind.nonRequired, 1), (PoolKind.required, 0)])
    (hflag : st.selector.hasRemainingFlag = false)
    (hfilt : st.selector.filterable ≠ [])
    (hs : ∀ k, 0 ≤ st.stream k ∧ st.stream k < 1/2) :
    ∃ p st', get_random_proprty st = some (p, st') ∧
      p ∈ st.selector.filterable ∧
      st'.option = st.option ∧ st'.rightPart = st.rightPart ∧
      st'.stream = st.stream ∧ st'.pos = st.pos + 2 := by
  have h1lt : st.stream st.pos < 1 := by
    have := (hs st.pos).2
    linarith
  have hpop := pyPopL_rand_isSome hfilt
    ((hs (st.pos + 1)).1) (by have := (hs (st.pos + 1)).2; linarith)
  unfold get_random_proprty
  dsimp only [drawQ]
  rw [htup]
  unfold weighted_random
  rw [if_pos h1lt]
  unfold non_required_get_proprty
  cases hp : pyPopL st.selector.filterable
      (pyRound (st.stream (st.pos + 1) * ((st.selector.filterable.length : ℚ) - 1))) with
  | none => rw [hp] at hpop; exact absurd hpop (by simp)
  | some pr =>
    obtain ⟨p, rest⟩ := pr
    have hmem : p ∈ st.selector.filterable := pyPopL_mem hp
    dsimp only
    by_cases hsv : (p.filterRestriction == some "single-value") = true
    · rw [if_pos hsv]
      dsimp only
      unfold update_remaining_proprties
      rw [if_neg (by dsimp only; rw [hflag]; simp)]
      exact ⟨p, _, rfl, hmem, rfl, rfl, rfl, rfl⟩
    · rw [if_neg hsv]
      dsimp only
      unfold update_remaining_proprties
      rw [if_neg (by dsimp only; rw [hflag]; simp)]
      exact ⟨p, _, rfl, hmem, rfl, rfl, rfl, rfl⟩

theorem generate_proprty_isSome (cfg : FQConfig) (st : FQState)
    (htup : st.selector.tuples = [(PoolKind.nonRequired, 1), (PoolKind.required, 0)])
    (hflag : st.selector.hasRemainingFlag = false)
    (hfilt : st.selector.filterable ≠ [])
    (hparts : st.option.parts ≠ [])
    (hrp : st.rightPart = false)
    (hops : ∀ p ∈ st.selector.filterable, (1:ℚ)/2 ≤ (p.operators.map Prod.snd).sum)
    (hs : ∀ k, 0 ≤ st.stream k ∧ st.stream k < 1/2) :
    (generate_proprty cfg st).isSome := by
  obtain ⟨p, st1, hget, hmem, hopt, hrp1, hstr1, hpos1⟩ :=
    get_random_proprty_shape st htup hflag hfilt hs
  have hop : (weighted_random (st1.stream st1.pos) p.operators).isSome := by
    apply weighted_random_isSome
    · rw [hstr1]; exact (hs st1.pos).1
    · calc st1.stream st1.pos < 1/2 := by rw [hstr1]; exact (hs st1.pos).2
        _ ≤ (p.operators.map Prod.snd).sum := hops p hmem
  have hp1 : st1.option.parts ≠ [] := by rw [hopt]; exact hparts
  obtain ⟨lp, hlp⟩ := getLast?_some_of_ne_nil hp1
  unfold generate_proprty
  rw [hget]
  simp only [Option.bind_eq_bind, Option.some_bind]
  dsimp only [drawQ]
  cases hw : weighted_random (st1.stream st1.pos) p.operators with
  | none => rw [hw] at hop; exact absurd hop (by simp)
  | some op =>
    simp only [Option.bind_eq_bind, Option.some_bind]
    unfold update_proprty_part
    dsimp only [lastPart?]
    rw [hlp]
    simp only [Option.bind_eq_bind, Option.some_bind]
    unfold update_right_logical_references
    rw [if_neg (by dsimp only [setLastPart]; rw [hrp1, hrp]; simp)]
    apply generate_remaining_isSome
    dsimp only [setLastPart]
    apply modLast_ne_nil
    exact hp1

theorem runCall_expr_step_small (cfg : FQConfig) (n : ℕ) (st : FQState)
    (hreq : st.selector.required = [])
    (hlt : st.stream st.pos < 1/2) :
    runCall cfg (n+1) .expr st =
      generate_element cfg { st with depth := st.depth + 1, pos := st.pos + 1 } := by
  have hb := @has_remaining_of_req_nil { st with depth := st.depth + 1 } hreq
  simp only [runCall, hb, Bool.false_eq_true, if_false, drawQ]
  rw [if_pos (Or.inl hlt)]

theorem c1_forced_leaf (cfg : FQConfig) (n : ℕ) (st : FQState)
    (hbudget : st.selector.required.length ≤ st.selector.timesCalled)
    (hdepth : cfg.recursionLimit ≤ st.depth) :
    runCall cfg (n+1) .expr st =
      generate_element cfg { st with depth := st.depth + 1, pos := st.pos + 1 } := by
  have hb : has_remaining { st with depth := st.depth + 1 } =
      (false, { st with depth := st.depth + 1 }) := by
    unfold has_remaining
    rw [if_pos hbudget]
  simp only [runCall, hb, Bool.false_eq_true, if_false, drawQ]
  rw [if_pos (Or.inr (show cfg.recursionLimit < st.depth + 1 by omega))]

theorem fq_terminates_small (cfg : FQConfig) (ps : List Proprty) (stream : ℕ → ℚ)
    (hreq : ∀ p ∈ ps, p.requiredInFilter = false)
    (hps : ps ≠ [])
    (hops : ∀ p ∈ ps, (1:ℚ)/2 ≤ (p.operators.map Prod.snd).sum)
    (hfn : cfg.functionsGroup = [])
    (hs : ∀ k, 0 ≤ stream k ∧ stream k < 1/2) :
    (fq_generate cfg ps none stream 1).isSome := by
  have hbeq : ∀ s : String, ((none : Option String) == some s) = false := fun s => rfl
  have hmark : filter_query_mark_required none ps = ps := by
    unfold filter_query_mark_required
    conv_rhs => rw [← List.map_id ps]
    apply List.map_congr_left
    intro p hp
    rw [hreq p hp]
    rfl
  have hreqnil : filter_query_required none ps = [] := by
    unfold filter_query_required
    rw [hmark]
    apply List.filter_eq_nil_iff.mpr
    intro p hp
    rw [hreq p hp, hbeq]
    simp
  have htup : (initSelector ps []).tuples = [(PoolKind.nonRequired, 1), (PoolKind.required, 0)] := by
    unfold initSelector
    dsimp only
    rw [show List.filter (fun p => !(([] : List Proprty).any fun q => q.name == p.name)) ps = ps
      from List.filter_eq_self.mpr (fun a _ => rfl)]
    rw [if_pos (by rw [List.isEmpty_eq_false.mpr hps]; rfl)]
    rw [if_neg (by simp)]
  have hr0 : (initFQState ps none stream).selector.required = [] := hreqnil
  have ht0 : (initFQState ps none stream).selector.tuples
      = [(PoolKind.nonRequired, 1), (PoolKind.required, 0)] := by
    show (initSelector (filter_query_mark_required none ps)
      (filter_query_required none ps)).tuples = _
    rw [hmark, hreqnil]
    exact htup
  have hfl0 : (initFQState ps none stream).selector.hasRemainingFlag = false := by
    show (!(filter_query_required none ps).isEmpty) = false
    rw [hreqnil]
    rfl
  unfold fq_generate generate_string
  rw [if_pos (show (initFQState ps none stream).selector.required.isEmpty = true by
    rw [hr0]; rfl)]
  dsimp only [drawQ]
  split_ifs with hsp
  · rw [Option.isSome_map']
    apply generate_proprty_isSome
    · exact ht0
    · exact hfl0
    · show filter_query_mark_required none ps ≠ []
      rw [hmark]; exact hps
    · show ([] : List PartM) ++ [{ id := 0 }] ≠ []
      simp
    · rfl
    · show ∀ p ∈ filter_query_mark_required none ps, _
      rw [hmark]; exact hops
    · exact hs
  · rw [Option.isSome_map']
    show (runCall cfg (0+1) .expr { initFQState ps none stream with pos := 1 }).isSome = true
    rw [runCall_expr_step_small cfg 0 { initFQState ps none stream with pos := 1 } hr0 ((hs 1).2)]
    unfold generate_element
    dsimp only [drawQ]
    rw [hfn]
    rw [if_pos (show ([] : List (List (ℚ → FuncGenerated))).isEmpty = true from rfl)]
    rw [ite_self]
    apply generate_proprty_isSome
    · exact ht0
    · exact hfl0
    · show filter_query_mark_required none ps ≠ []
      rw [hmark]; exact hps
    · show ([] : List PartM) ++ [{ id := 0 }] ≠ []
      simp
    · rfl
    · show ∀ p ∈ filter_query_mark_required none ps, _
      rw [hmark]; exact hops
    · exact hs

/-- C1 amended: once the forced-continuation budget of the property
selector is spent and the recursion depth exceeds RECURSION_LIMIT,
_noterm_expression is forced to expand into a leaf element regardless of
the draw; and generation terminates, for example, whenever every draw is
below one half (here with no required properties and an empty functions
group).  But generation does not terminate for EVERY random sequence:
the _noterm_parent/_generate_child/_noterm_child cycle never increments
the recursion depth, so a sequence of draws that stays at or above one
half recurses forever (see the counterexample). -/
theorem c1_amended :
    (∀ (cfg : FQConfig) (n : ℕ) (st : FQState),
        st.selector.required.length ≤ st.selector.timesCalled →
        cfg.recursionLimit ≤ st.depth →
        runCall cfg (n+1) .expr st =
          generate_element cfg { st with depth := st.depth + 1, pos := st.pos + 1 }) ∧
    (∀ (cfg : FQConfig) (ps : List Proprty) (stream : ℕ → ℚ),
        (∀ p ∈ ps, p.requiredInFilter = false) → ps ≠ [] →
        (∀ p ∈ ps, (1:ℚ)/2 ≤ (p.operators.map Prod.snd).sum) →
        cfg.functionsGroup = [] →
        (∀ k, 0 ≤ stream k ∧ stream k < 1/2) →
        (fq_generate cfg ps none stream 1).isSome) :=
  ⟨fun cfg n st h1 h2 => c1_forced_leaf cfg n st h1 h2,
   fun cfg ps stream h1 h2 h3 h4 h5 => fq_terminates_small cfg ps stream h1 h2 h3 h4 h5⟩

theorem c1_amended_witness :
    (runCall fixCfg 1 .expr c1WitState =
      generate_element fixCfg
        { c1WitState with depth := c1WitState.depth + 1, pos := c1WitState.pos + 1 }) ∧
    (fq_generate fixCfg [propB] none (fun _ => 1/4) 1).isSome := by
  constructor
  · exact c1_amended.1 fixCfg 0 c1WitState
      (by show (0:ℕ) ≤ 0; exact le_refl 0)
      (by show (3:ℕ) ≤ 5; omega)
  · exact c1_amended.2 fixCfg [propB] (fun _ => 1/4)
      (by intro p hp
          rw [List.mem_singleton] at hp
          subst hp
          rfl)
      (List.cons_ne_nil _ _)
      (by intro p hp
          rw [List.mem_singleton] at hp
          subst hp
          exact of_decide_eq_true (by with_unfolding_all rfl))
      rfl
      (fun k => ⟨by norm_num, by norm_num⟩)

/-! ### C2: required-property coverage -/

theorem map_eraseIdx {α β : Type} (f : α → β) :
    ∀ (xs : List α) (j : ℕ), (xs.eraseIdx j).map f = (xs.map f).eraseIdx j := by
  intro xs
  induction xs with
  | nil => intro j; rfl
  | cons x t ih =>
    intro j
    cases j with
    | zero => rfl
    | succ j =>
      simp only [List.eraseIdx_cons_succ, List.map_cons]
      rw [ih]

theorem count_eraseIdx_get {α : Type} [DecidableEq α] :
    ∀ (xs : List α) (j : ℕ) (a : α), xs.get? j = some a →
      (xs.eraseIdx j).count a + 1 = xs.count a := by
  intro xs
  induction xs with
  | nil => intro j a h; cases j <;> cases h
  | cons x t ih =>
    intro j a h
    cases j with
    | zero =>
      have hx : x = a := by
        have : some x = some a := h
        exact Option.some.inj this
      subst hx
      simp [List.eraseIdx, List.count_cons]
    | succ j =>
      have ht : t.get? j = some a := h
      show (x :: t.eraseIdx j).count a + 1 = (x :: t).count a
      simp only [List.count_cons]
      rw [← ih j a ht]
      ring

theorem pyPopL_spec {α : Type} {xs : List α} {i : ℤ} {a : α} {rest : List α}
    (h : pyPopL xs i = some (a, rest)) :
    ∃ j, xs.get? j = some a ∧ rest = xs.eraseIdx j := by
  unfold pyPopL at h
  cases hres : pyResolveIdx xs.length i with
  | none => rw [hres] at h; exact absurd h (by simp)
  | some j =>
    rw [hres] at h
    simp only [Option.some_bind] at h
    cases hg : xs.get? j with
    | none => rw [hg] at h; exact absurd h (by simp)
    | some b =>
      rw [hg] at h
      simp only [Option.map_some', Option.some.injEq, Prod.mk.injEq] at h
      exact ⟨j, h.1 ▸ hg, h.2.symm⟩

/-- C2 counterexample: required-property coverage fails.  Against two
properties A (required in filter) and B, the draw sequence c2Stream lets
both pool selections fall below the 0.01 weight of the non-required
group, whose pool wraps the FULL filterable list; the produced expression
"B eq b1 and B eq b1" contains no comparison on the required property A. -/
theorem c2_counterexample :
    propA.requiredInFilter = true ∧
    (fq_generate fixCfg [propA, propB] none c2Stream 30).map
        (fun g => (g.parts.map (fun pt => pt.name), g.optionString)) =
      some ([some "B", some "B"], "B eq b1 and B eq b1") :=
  ⟨rfl, of_decide_eq_true (by with_unfolding_all rfl)⟩

/-- C2 amended: the pool mechanics the claim describes hold only for the
required pool — RequiredProprties.get_proprty pops its pick, so the
required pool's own multiset loses exactly one occurrence of the drawn
name; NonRequiredProprties.get_proprty, whose pool wraps the full
filterable list (required properties included), leaves the list unchanged
unless the pick is single-value restricted, so a required property can be
drawn again — or never — through the non-required pool (see the
counterexample). -/
theorem c2_amended :
    (∀ (req : List Proprty) (r : ℚ) (p : Proprty) (rest : List Proprty),
        required_get_proprty req r = some (p, rest) →
        p ∈ req ∧
          (rest.map Proprty.name).count p.name + 1 = (req.map Proprty.name).count p.name) ∧
    (∀ (filt : List Proprty) (r : ℚ) (p : Proprty) (rest : List Proprty),
        non_required_get_proprty filt r = some (p, rest) →
        p ∈ filt ∧ (¬ p.filterRestriction = some "single-value" → rest = filt)) := by
  constructor
  · intro req r p rest h
    unfold required_get_proprty at h
    obtain ⟨j, hg, hr⟩ := pyPopL_spec h
    refine ⟨List.get?_mem hg, ?_⟩
    rw [hr, map_eraseIdx]
    exact count_eraseIdx_get (req.map Proprty.name) j p.name
      (by rw [List.get?_map, hg]; rfl)
  · intro filt r p rest h
    unfold non_required_get_proprty at h
    cases hp : pyPopL filt (pyRound (r * ((filt.length : ℚ) - 1))) with
    | none => rw [hp] at h; cases h
    | some pr =>
      obtain ⟨q, rest0⟩ := pr
      rw [hp] at h
      dsimp only at h
      by_cases hsv : (q.filterRestriction == some "single-value") = true
      · rw [if_pos hsv] at h
        simp only [Option.some.injEq, Prod.mk.injEq] at h
        obtain ⟨hpq, hrr⟩ := h
        subst hpq
        refine ⟨pyPopL_mem hp, ?_⟩
        intro hne
        exact absurd (beq_iff_eq.mp hsv) hne
      · rw [if_neg hsv] at h
        simp only [Option.some.injEq, Prod.mk.injEq] at h
        obtain ⟨hpq, hrr⟩ := h
        subst hpq
        exact ⟨pyPopL_mem hp, fun _ => hrr.symm⟩

theorem c2_amended_witness :
    (propA ∈ [propA] ∧
      (([] : List Proprty).map Proprty.name).count propA.name + 1 =
        ([propA].map Proprty.name).count propA.name) ∧
    (propB ∈ [propB] ∧
      (¬ propB.filterRestriction = some "single-value" → [propB] = [propB])) :=
  ⟨c2_amended.1 [propA] 0 propA [] (by with_unfolding_all rfl),
   c2_amended.2 [propB] 0 propB [propB] (by with_unfolding_all rfl)⟩


/-! ### C6: interval pairing -/

/-- C6 counterexample: the interval pairing is skipped when the drawn
operator is eq.  On c6Stream the single-leaf fast path draws the interval
property P with operator eq, and the finished expression is the lone
comparison "P eq 7" with no companion and no logical connective. -/
theorem c6_counterexample :
    propPeq.filterRestriction = some "interval" ∧
    (fq_generate fixCfg [propPeq] none c6Stream 5).map
        (fun g => (g.parts.length, g.logicals.length, g.optionString)) =
      some (1, 0, "P eq 7") :=
  ⟨rfl, of_decide_eq_true (by with_unfolding_all rfl)⟩

/-- C6 amended: for an interval-restricted property the companion
comparison is appended only when the used operator is NOT eq — then
exactly one new part carrying the complementary bound operator (ge for
le, le otherwise) and exactly one new logical named and are added, and
the rendered string gains the companion comparison; when the used
operator is eq the state passes through unchanged, leaving a lone
comparison (see the counterexample). -/
theorem c6_amended (cfg : FQConfig) (p : Proprty) (op : String) (st : FQState)
    (hint : p.filterRestriction = some "interval")
    (hop : op ≠ "eq") (hp : st.option.parts ≠ []) :
    ((generate_remaining_proprties cfg p op st).map (fun st2 =>
        (st2.option.parts.length, st2.option.logicals.length, st2.optionString,
         st2.option.logicals.getLast?.map (fun l => l.name),
         st2.option.parts.getLast?.map (fun pt => (pt.name, pt.operator, pt.operand)))) =
      some (st.option.parts.length + 1, st.option.logicals.length + 1,
         st.optionString ++ " " ++ "and" ++ " " ++ p.name ++ " " ++
           (if op = "le" then "ge" else "le") ++ " " ++ p.gen (st.stream st.pos),
         some (some "and"),
         some (some p.name, some (if op = "le" then "ge" else "le"),
           some (p.gen (st.stream st.pos))))) ∧
    generate_remaining_proprties cfg p "eq" st = some st := by
  constructor
  · obtain ⟨lp, hlp⟩ := getLast?_some_of_ne_nil hp
    unfold generate_remaining_proprties
    rw [hint]
    dsimp only
    rw [if_pos rfl]
    unfold generate_interval_values
    rw [if_pos hop]
    unfold generate_next_interval_value
    cases hstk : st.groupsStack.getLast? with
    | none =>
      simp only [generate_sap_restricted, update_left_logical_references,
        update_proprty_part, set_right_logical_references, addLogical, addPart,
        setLastLogical, setLastPart, lastPart?, lastLogical?, updateGroupById,
        drawQ, hstk, hlp, getLast?_modLast, List.getLast?_concat,
        Option.map_some', Option.bind_eq_bind, Option.some_bind, Option.bind]
      simp [modLast_length]
    | some gid =>
      simp only [generate_sap_restricted, update_left_logical_references,
        update_proprty_part, set_right_logical_references, addLogical, addPart,
        setLastLogical, setLastPart, lastPart?, lastLogical?, updateGroupById,
        drawQ, hstk, hlp, getLast?_modLast, List.getLast?_concat,
        Option.map_some', Option.bind_eq_bind, Option.some_bind, Option.bind]
      simp [modLast_length]
  · unfold generate_remaining_proprties
    rw [hint]
    dsimp only
    rw [if_pos rfl]
    unfold generate_interval_values
    rw [if_neg (by simp)]

theorem c6_amended_witness :
    ((generate_remaining_proprties fixCfg propPeq "le" c6WitState).map (fun st2 =>
        (st2.option.parts.length, st2.option.logicals.length, st2.optionString,
         st2.option.logicals.getLast?.map (fun l => l.name),
         st2.option.parts.getLast?.map (fun pt => (pt.name, pt.operator, pt.operand)))) =
      some (c6WitState.option.parts.length + 1, c6WitState.option.logicals.length + 1,
         c6WitState.optionString ++ " " ++ "and" ++ " " ++ propPeq.name ++ " " ++
           (if "le" = "le" then "ge" else "le") ++ " " ++
           propPeq.gen (c6WitState.stream c6WitState.pos),
         some (some "and"),
         some (some propPeq.name, some (if "le" = "le" then "ge" else "le"),
           some (propPeq.gen (c6WitState.stream c6WitState.pos))))) ∧
    generate_remaining_proprties fixCfg propPeq "eq" c6WitState = some c6WitState :=
  c6_amended fixCfg propPeq "le" c6WitState rfl (by decide)
    (by show ([] : List PartM) ++ [{ id := 0 }] ≠ []; simp)


end Odfuzz
